import Mathlib

/-!
Shallow embedding of `semifractal.py`: a 1-D cellular-automaton wedge
generator that rotates the triangular wedge four times around the center of
a square grid.  Python machine behaviour that matters here:

* Python list indexing `l[i]` accepts `-len l ≤ i < len l`, where negative
  indices count from the end; anything else raises `IndexError`.
* `random.randint(a, b)` draws uniformly from the 2001-element inclusive
  range `[a, b]` when `a = 0`, `b = 2000`.
* Python 2 `/` on ints is floor division; for the positive divisor 2 used by
  `Grid.__init__` it coincides with Lean's `Int` division (`Int.ediv`).
* `xrange(k)` is empty for `k ≤ 0`, which `Int.toNat` models.

Stateful code (the shared `random` module state that the randomized rule
consumes) is embedded by explicit state passing: a rule is a function
`List Bool → σ → Bool × σ`, and `random.seed` is an abstract `reseed`
function `Int → σ`.  Fallible code returns `Except Err _`.
-/

/-- Failure kinds.  `outOfBounds` models the Python `IndexError` raised by
list indexing (the spec's `OutOfBoundsError`); `invalidSeed` models the
`ValueError` raised by `int('')` (the spec's `InvalidSeedError`).
`invalidWedgeSize` is modelled from the spec: the spec (§7) names an
`InvalidWedgeSizeError` for `n ≤ 0`, but no such error exists anywhere in
the source; the constructor exists only so the spec's statement can be
expressed and compared with what the code actually does. -/
inductive Err where
  | outOfBounds
  | invalidSeed
  | invalidWedgeSize
deriving DecidableEq, Repr

instance {ε α : Type} [DecidableEq ε] [DecidableEq α] : DecidableEq (Except ε α)
  | .error e, .error f =>
    if h : e = f then .isTrue (congrArg Except.error h)
    else .isFalse (fun c => h (Except.error.inj c))
  | .error _, .ok _ => .isFalse (fun c => Except.noConfusion c)
  | .ok _, .error _ => .isFalse (fun c => Except.noConfusion c)
  | .ok a, .ok b =>
    if h : a = b then .isTrue (congrArg Except.ok h)
    else .isFalse (fun c => h (Except.ok.inj c))

/-- Python list indexing: `l[i]` for a list of length `len` resolves to a
non-negative position, allowing negative indices to count from the end;
out-of-range indices raise `IndexError`. -/
def pyIndex (len : Nat) (i : Int) : Except Err Nat :=
  if 0 ≤ i then
    if i < (len : Int) then .ok i.toNat else .error .outOfBounds
  else
    if 0 ≤ (len : Int) + i then .ok ((len : Int) + i).toNat else .error .outOfBounds

/-- The `Grid` class: `width`/`height`, the `center` computed once in
`__init__`, the provenance `seed` (initially `None`), and the row-major
boolean `array` (`array[y][x]`). -/
structure Grid where
  width : Int
  height : Int
  center : Int × Int
  seed : Option Int
  array : List (List Bool)
deriving DecidableEq, Repr

/-- `Grid.__init__(x, y)`: `center = (int(width / 2), int(height / 2))`
(Python 2 floor division; for the divisor 2 this is Lean's `Int` division),
and `array` is built by appending `height` rows of `width` `False`s
(`xrange` of a negative number is empty, hence `Int.toNat`). -/
def Grid.make (x y : Int) : Grid :=
  { width := x
    height := y
    center := (x / 2, y / 2)
    seed := none
    array := List.replicate y.toNat (List.replicate x.toNat false) }

/-- `Grid.get`: `return self.array[y][x]`; the first failing index raises. -/
def Grid.get (g : Grid) (x y : Int) : Except Err Bool :=
  match pyIndex g.array.length y with
  | .error e => .error e
  | .ok r =>
    let row := g.array.getD r []
    match pyIndex row.length x with
    | .error e => .error e
    | .ok c => .ok (row.getD c false)

/-- `Grid.set`: `self.array[y][x] = value`; the first failing index raises. -/
def Grid.set (g : Grid) (x y : Int) (v : Bool) : Except Err Grid :=
  match pyIndex g.array.length y with
  | .error e => .error e
  | .ok r =>
    let row := g.array.getD r []
    match pyIndex row.length x with
    | .error e => .error e
    | .ok c => .ok { g with array := g.array.set r (row.set c v) }

/-- Total view of one cell, `false` off the grid; used to state invariants
about grid contents. -/
def cellI (g : Grid) (x y : Int) : Bool :=
  if 0 ≤ x ∧ 0 ≤ y then (g.array.getD y.toNat []).getD x.toNat false else false

/-- Structural well-formedness of the backing array: as many rows as
`height`, every row as long as `width`. -/
def wf (g : Grid) : Prop :=
  g.array.length = g.height.toNat ∧ ∀ row ∈ g.array, row.length = g.width.toNat

/-- `Rules.rule150Black`: the four neighborhoods that turn a cell black. -/
def rule150Black : List (List Bool) :=
  [[true, false, false], [false, true, false], [false, false, true], [true, true, true]]

/-- `Rules.rule150`: membership test `above in Rules.rule150Black`. -/
def rule150 (above : List Bool) : Bool :=
  rule150Black.contains above

/-- `Rules.rule150randomized`: if the deterministic table hits, draw
`random.randint(0, 2000)` from the shared random source (state `σ`) and
return `True` unless the draw is `0`; otherwise return `False` without
drawing. -/
def rule150randomized {σ : Type} (randint : Nat → Nat → σ → Nat × σ)
    (above : List Bool) (s : σ) : Bool × σ :=
  if rule150 above then
    let p := randint 0 2000 s
    (decide (p.1 ≠ 0), p.2)
  else (false, s)

/-- A seed argument as the program uses it: either an integer (passed
through) or a string (encoded). -/
inductive Seed where
  | int (n : Int)
  | str (s : String)
deriving DecidableEq, Repr

/-- Number of decimal digits of `n`, computed with structural fuel
(`n` itself suffices as fuel since `n / 10 < n` for `n ≥ 10`). -/
def digitsLenAux : Nat → Nat → Nat
  | 0, _ => 1
  | fuel + 1, n => if n < 10 then 1 else 1 + digitsLenAux fuel (n / 10)

/-- Number of decimal digits of `n` (1 for `n = 0`). -/
def decimalLen (n : Nat) : Nat := digitsLenAux n n

/-- Arithmetic value of `int(''.join([str(ord(x)) for x in s]))`: appending
the decimal representation of `ord(x)` to an accumulated decimal string
multiplies the accumulated value by `10 ^ (number of digits of ord(x))` and
adds `ord(x)`. -/
def ofChars (l : List Char) : Nat :=
  l.foldl (fun acc ch => acc * 10 ^ decimalLen ch.toNat + ch.toNat) 0

/-- The `to_int` lambda of `Generator._generate_seed` applied to a string. -/
def to_int (s : String) : Int :=
  (ofChars s.data : Nat)

/-- `Generator._generate_seed` for a supplied (non-`None`) seed: integers
pass through, anything else is stringified and digit-concatenated.
`int('')` raises `ValueError` (the spec's `InvalidSeedError`), hence the
empty-string case. -/
def _generate_seed : Seed → Except Err Int
  | .int n => .ok n
  | .str s => if s.isEmpty then .error .invalidSeed else .ok (to_int s)

/-- Maps a stateful function across a list, threading the state left to
right; models a Python loop that both consumes random draws and collects
results. -/
def mapState {σ α β : Type} (f : α → σ → β × σ) : List α → σ → List β × σ
  | [], s => ([], s)
  | a :: rest, s =>
    let p := f a s
    let q := mapState f rest p.2
    (p.1 :: q.1, q.2)

/-- `Generator._calculate_row`: pad the previous row with two `False`s on
each side, slide a width-3 window over every position (`previous_row[i:i+3]`
is `(padded.drop i).take 3`), and apply the rule to each window. -/
def _calculate_row {σ : Type} (rule : List Bool → σ → Bool × σ)
    (previous_row : List Bool) (s : σ) : List Bool × σ :=
  let padded := [false, false] ++ previous_row ++ [false, false]
  mapState rule ((List.range (padded.length - 2)).map (fun i => (padded.drop i).take 3)) s

/-- The `xrange(n - 1)` loop body of `Generator.generate`: produce `k`
further rows from `row`, threading the random state. -/
def generate_rows {σ : Type} (rule : List Bool → σ → Bool × σ) :
    Nat → List Bool → σ → List (List Bool) × σ
  | 0, _, s => ([], s)
  | k + 1, row, s =>
    let p := _calculate_row rule row s
    let q := generate_rows rule k p.1 p.2
    (p.1 :: q.1, q.2)

/-- `Generator.generate(n)`: yields `[True]` first and then `n - 1` computed
rows (`xrange(n - 1)` is empty for `n ≤ 1`). -/
def generate {σ : Type} (rule : List Bool → σ → Bool × σ) (n : Int) (s : σ) :
    List (List Bool) × σ :=
  let q := generate_rows rule (n - 1).toNat [true] s
  ([true] :: q.1, q.2)

/-- The four `grid.set` calls of `Generator.create_grid` for one active cell
at row `index`, position `i`: `raw_x = index`, `raw_y = i - index`, written
at all four rotations about the center. -/
def write_cell (cx cy : Int) (index i : Nat) (g : Grid) : Except Err Grid :=
  let raw_x : Int := (index : Int)
  let raw_y : Int := (i : Int) - (index : Int)
  match g.set (cx + raw_x) (cy + raw_y) true with
  | .error e => .error e
  | .ok g1 =>
    match g1.set (cx - raw_x) (cy - raw_y) true with
    | .error e => .error e
    | .ok g2 =>
      match g2.set (cx - raw_y) (cy + raw_x) true with
      | .error e => .error e
      | .ok g3 => g3.set (cx + raw_y) (cy - raw_x) true

/-- The inner `for i, cell in enumerate(row)` loop of `create_grid`,
starting at position `i`. -/
def write_row (cx cy : Int) (index : Nat) : Nat → List Bool → Grid → Except Err Grid
  | _, [], g => .ok g
  | i, cell :: rest, g =>
    match (if cell then write_cell cx cy index i g else .ok g) with
    | .error e => .error e
    | .ok g' => write_row cx cy index (i + 1) rest g'

/-- The outer `for index, row in enumerate(self.generate(n))` loop of
`create_grid`, starting at row `index`. -/
def write_rows (cx cy : Int) : Nat → List (List Bool) → Grid → Except Err Grid
  | _, [], g => .ok g
  | index, row :: rest, g =>
    match write_row cx cy index 0 row g with
    | .error e => .error e
    | .ok g' => write_rows cx cy (index + 1) rest g'

/-- `Generator.create_grid(n)`: allocate a `(2n-1) × (2n-1)` grid, store the
canonical seed on it, reseed the shared random source with that canonical
seed (discarding whatever state `s0` the source had), generate `n` rows and
write each active cell at its four rotations about the center.  The grid
writes never consume randomness, so generating the rows before writing them
is observationally identical to the interleaved Python loop. -/
def create_grid {σ : Type} (reseed : Int → σ) (rule : List Bool → σ → Bool × σ)
    (seed : Seed) (n : Int) (s0 : σ) : Except Err Grid :=
  let size := n * 2 - 1
  let grid0 := Grid.make size size
  let center_x := grid0.center.1
  let center_y := grid0.center.2
  match _generate_seed seed with
  | .error e => .error e
  | .ok sv =>
    let grid1 := { grid0 with seed := some sv }
    let s := reseed sv
    let rows := (generate rule n s).1
    write_rows center_x center_y 0 rows grid1

/-- The deterministic rule lifted to a stateful rule over a trivial state;
used to instantiate theorems at concrete inputs. -/
def pureRule : List Bool → Unit → Bool × Unit :=
  fun above s => (rule150 above, s)

/-- Uniform-draw model of `random.randint` used to state the suppression
probability: the state is the pending draw itself, so ranging the state over
`Finset.range 2001` ranges the draw over the 2001 equally likely values of
`random.randint(0, 2000)`. -/
def pickDraw : Nat → Nat → Nat → Nat × Nat :=
  fun _ _ d => (d, d)

/-- Number of draw values in the 2001-element support of
`random.randint(0, 2000)` on which the randomized rule answers `false`. -/
def suppressCount (t : List Bool) : Nat :=
  ((Finset.range 2001).filter (fun d => (rule150randomized pickDraw t d).1 = false)).card

lemma getD_mem {α : Type} (d : α) : ∀ (l : List α) (n : Nat), n < l.length → l.getD n d ∈ l
  | [], n, h => absurd h (by simp)
  | a :: t, 0, _ => by simp [List.getD]
  | a :: t, n + 1, h => by
    simp only [List.getD_cons_succ]
    exact List.mem_cons_of_mem _ (getD_mem d t n (by simpa using h))

lemma getD_set {α : Type} (v d : α) : ∀ (l : List α) (i j : Nat), i < l.length →
    (l.set i v).getD j d = if i = j then v else l.getD j d
  | [], i, j, h => absurd h (by simp)
  | a :: t, 0, 0, _ => by simp [List.getD]
  | a :: t, 0, j + 1, _ => by simp [List.getD]
  | a :: t, i + 1, 0, _ => by simp [List.getD]
  | a :: t, i + 1, j + 1, h => by
    simp only [List.set_cons_succ, List.getD_cons_succ, Nat.add_right_cancel_iff]
    exact getD_set v d t i j (by simpa using h)

lemma getD_replicate {α : Type} (a d : α) :
    ∀ (nn m : Nat), m < nn → (List.replicate nn a).getD m d = a
  | 0, m, h => absurd h (by simp)
  | nn + 1, 0, _ => by simp [List.replicate, List.getD]
  | nn + 1, m + 1, h => by
    simp only [List.replicate, List.getD_cons_succ]
    exact getD_replicate a d nn m (by omega)

lemma pyIndex_ok_nonneg (len : Nat) (i : Int) (h0 : 0 ≤ i) (h1 : i < (len : Int)) :
    pyIndex len i = .ok i.toNat := by
  unfold pyIndex
  rw [if_pos h0, if_pos h1]

lemma pyIndex_ok_neg (len : Nat) (i : Int) (h0 : i < 0) (h1 : 0 ≤ (len : Int) + i) :
    pyIndex len i = .ok ((len : Int) + i).toNat := by
  unfold pyIndex
  rw [if_neg (by omega), if_pos h1]

lemma pyIndex_err_ge (len : Nat) (i : Int) (h : (len : Int) ≤ i) :
    pyIndex len i = .error .outOfBounds := by
  unfold pyIndex
  rw [if_pos (by omega), if_neg (by omega)]

lemma pyIndex_err_lt (len : Nat) (i : Int) (h : i < -(len : Int)) :
    pyIndex len i = .error .outOfBounds := by
  unfold pyIndex
  rw [if_neg (by omega), if_neg (by omega)]

lemma pyIndex_zero_len (i : Int) : pyIndex 0 i = .error .outOfBounds := by
  rcases le_or_lt 0 i with h | h
  · exact pyIndex_err_ge 0 i (by omega)
  · exact pyIndex_err_lt 0 i (by omega)

lemma pyIndex_ok_lt (len : Nat) (i : Int) (r : Nat) (h : pyIndex len i = .ok r) : r < len := by
  unfold pyIndex at h
  split at h <;> split at h <;> simp_all <;> omega

lemma set_spec (g : Grid) (x y : Int) (hwf : wf g)
    (hx0 : 0 ≤ x) (hx1 : x < g.width) (hy0 : 0 ≤ y) (hy1 : y < g.height) :
    ∃ g', g.set x y true = .ok g' ∧ wf g' ∧
      g'.width = g.width ∧ g'.height = g.height ∧ g'.center = g.center ∧ g'.seed = g.seed ∧
      ∀ a b : Int, (cellI g' a b = true ↔ (cellI g a b = true ∨ (a = x ∧ b = y))) := by
  obtain ⟨hlen, hrows⟩ := hwf
  have hyN : y.toNat < g.array.length := by omega
  have hrlen : (g.array.getD y.toNat []).length = g.width.toNat :=
    hrows _ (getD_mem _ _ _ hyN)
  have hpy : pyIndex g.array.length y = .ok y.toNat := pyIndex_ok_nonneg _ _ hy0 (by omega)
  have hpx : pyIndex (g.array.getD y.toNat []).length x = .ok x.toNat :=
    pyIndex_ok_nonneg _ _ hx0 (by omega)
  refine ⟨{ g with array := g.array.set y.toNat ((g.array.getD y.toNat []).set x.toNat true) }, ?_, ⟨?_, ?_⟩, rfl, rfl, rfl, rfl, ?_⟩
  · unfold Grid.set
    rw [hpy]
    dsimp only
    rw [hpx]
  · simpa using hlen
  · intro row hmem
    rcases List.mem_or_eq_of_mem_set hmem with hold | hnew
    · exact hrows row hold
    · rw [hnew, List.length_set]
      exact hrlen
  · intro a b
    by_cases hab : 0 ≤ a ∧ 0 ≤ b
    · obtain ⟨ha, hb⟩ := hab
      simp only [cellI, if_pos (And.intro ha hb)]
      rw [getD_set _ _ _ _ _ hyN]
      by_cases hby : b = y
      · rw [if_pos (by omega)]
        rw [getD_set _ _ _ _ _ (by omega : x.toNat < (g.array.getD y.toNat []).length)]
        by_cases hax : a = x
        · rw [if_pos (by omega)]
          simp [hax, hby]
        · rw [if_neg (by omega)]
          subst hby
          simp [hax]
      · rw [if_neg (by omega)]
        simp [hby]
    · have e1 : cellI { g with array := g.array.set y.toNat ((g.array.getD y.toNat []).set x.toNat true) } a b = false := by
        simp [cellI, hab]
      have e2 : cellI g a b = false := by simp [cellI, hab]
      rw [e1, e2]
      simp only [Bool.false_eq_true, false_iff, false_or]
      rintro ⟨rfl, rfl⟩
      exact hab ⟨hx0, hy0⟩

lemma get_spec (g : Grid) (x y : Int) (hwf : wf g)
    (hx0 : 0 ≤ x) (hx1 : x < g.width) (hy0 : 0 ≤ y) (hy1 : y < g.height) :
    g.get x y = .ok (cellI g x y) := by
  obtain ⟨hlen, hrows⟩ := hwf
  have hyN : y.toNat < g.array.length := by omega
  have hrlen : (g.array.getD y.toNat []).length = g.width.toNat :=
    hrows _ (getD_mem _ _ _ hyN)
  have hpy : pyIndex g.array.length y = .ok y.toNat := pyIndex_ok_nonneg _ _ hy0 (by omega)
  have hpx : pyIndex (g.array.getD y.toNat []).length x = .ok x.toNat :=
    pyIndex_ok_nonneg _ _ hx0 (by omega)
  unfold Grid.get
  rw [hpy]
  dsimp only
  rw [hpx]
  unfold cellI
  rw [if_pos (And.intro hx0 hy0)]

/-- The four rotated targets that `create_grid` writes for one active wedge
cell with raw offsets `(rx, ry)` from the center `(cx, cy)`. -/
def hit4 (cx cy rx ry a b : Int) : Prop :=
  (a = cx + rx ∧ b = cy + ry) ∨ (a = cx - rx ∧ b = cy - ry) ∨
  (a = cx - ry ∧ b = cy + rx) ∨ (a = cx + ry ∧ b = cy - rx)

/-- The four-target set is closed under the 90-degree rotation
`(cx + a, cy + b) ↦ (cx - b, cy + a)` about the center. -/
lemma hit4_rot (c rx ry a b : Int) :
    hit4 c c rx ry (c + a) (c + b) ↔ hit4 c c rx ry (c - b) (c + a) := by
  unfold hit4
  omega

/-- Invariance of a grid's contents under 90-degree rotation about `(c, c)`. -/
def RotSym (c : Int) (g : Grid) : Prop :=
  ∀ a b : Int, cellI g (c + a) (c + b) = true ↔ cellI g (c - b) (c + a) = true

lemma write_cell_spec (c : Int) (k i : Nat) (g : Grid) (hwf : wf g)
    (hw : g.width = 2 * c + 1) (hh : g.height = 2 * c + 1)
    (hk : (k : Int) ≤ c) (hi : (i : Int) ≤ 2 * (k : Int)) :
    ∃ g', write_cell c c k i g = .ok g' ∧ wf g' ∧
      g'.width = g.width ∧ g'.height = g.height ∧ g'.center = g.center ∧ g'.seed = g.seed ∧
      ∀ a b : Int, (cellI g' a b = true ↔
        (cellI g a b = true ∨ hit4 c c (k : Int) ((i : Int) - (k : Int)) a b)) := by
  obtain ⟨g1, e1, wf1, w1, h1, c1, s1, f1⟩ :=
    set_spec g (c + (k : Int)) (c + ((i : Int) - (k : Int))) hwf
      (by omega) (by omega) (by omega) (by omega)
  obtain ⟨g2, e2, wf2, w2, h2, c2, s2, f2⟩ :=
    set_spec g1 (c - (k : Int)) (c - ((i : Int) - (k : Int))) wf1
      (by omega) (by omega) (by omega) (by omega)
  obtain ⟨g3, e3, wf3, w3, h3, c3, s3, f3⟩ :=
    set_spec g2 (c - ((i : Int) - (k : Int))) (c + (k : Int)) wf2
      (by omega) (by omega) (by omega) (by omega)
  obtain ⟨g4, e4, wf4, w4, h4, c4, s4, f4⟩ :=
    set_spec g3 (c + ((i : Int) - (k : Int))) (c - (k : Int)) wf3
      (by omega) (by omega) (by omega) (by omega)
  refine ⟨g4, ?_, wf4, by omega, by omega, by rw [c4, c3, c2, c1], by rw [s4, s3, s2, s1], ?_⟩
  · unfold write_cell
    dsimp only
    rw [e1]
    dsimp only
    rw [e2]
    dsimp only
    rw [e3]
    dsimp only
    exact e4
  · intro a b
    rw [f4 a b, f3 a b, f2 a b, f1 a b]
    unfold hit4
    tauto

lemma write_row_spec (c : Int) (k : Nat) (hk : (k : Int) ≤ c) :
    ∀ (cells : List Bool) (i : Nat) (g : Grid), wf g →
      g.width = 2 * c + 1 → g.height = 2 * c + 1 →
      ((i : Int) + cells.length ≤ 2 * (k : Int) + 1) →
      ∃ g', write_row c c k i cells g = .ok g' ∧ wf g' ∧
        g'.width = g.width ∧ g'.height = g.height ∧ g'.center = g.center ∧
        g'.seed = g.seed ∧ (RotSym c g → RotSym c g') := by
  intro cells
  induction cells with
  | nil =>
    intro i g hwf hw hh _
    exact ⟨g, rfl, hwf, rfl, rfl, rfl, rfl, fun h => h⟩
  | cons cell rest ih =>
    intro i g hwf hw hh hlen
    simp only [List.length_cons] at hlen
    push_cast at hlen
    cases cell with
    | false =>
      obtain ⟨g', e', wf', w', h', c', s', f'⟩ :=
        ih (i + 1) g hwf hw hh (by push_cast; omega)
      refine ⟨g', ?_, wf', w', h', c', s', f'⟩
      simp only [write_row, if_false]
      exact e'
    | true =>
      obtain ⟨g1, e1, wf1, w1, h1, c1, s1, f1⟩ :=
        write_cell_spec c k i g hwf hw hh hk (by omega)
      obtain ⟨g', e', wf', w', h', c', s', f'⟩ :=
        ih (i + 1) g1 wf1 (by omega) (by omega) (by push_cast; omega)
      refine ⟨g', ?_, wf', by omega, by omega, by rw [c', c1], by rw [s', s1], ?_⟩
      · simp only [write_row, if_true]
        rw [e1]
        exact e'
      · intro hs
        apply f'
        intro a b
        rw [f1 (c + a) (c + b), f1 (c - b) (c + a)]
        exact or_congr (hs a b) (hit4_rot c (k : Int) ((i : Int) - (k : Int)) a b)

lemma write_rows_spec (c : Int) :
    ∀ (rows : List (List Bool)) (index : Nat) (g : Grid), wf g →
      g.width = 2 * c + 1 → g.height = 2 * c + 1 →
      (∀ m, m < rows.length → ((rows.getD m []).length : Int) ≤ 2 * ((index : Int) + m) + 1) →
      ((index : Int) + rows.length ≤ c + 1) →
      ∃ g', write_rows c c index rows g = .ok g' ∧ wf g' ∧
        g'.width = g.width ∧ g'.height = g.height ∧ g'.center = g.center ∧
        g'.seed = g.seed ∧ (RotSym c g → RotSym c g') := by
  intro rows
  induction rows with
  | nil =>
    intro index g hwf _ _ _ _
    exact ⟨g, rfl, hwf, rfl, rfl, rfl, rfl, fun h => h⟩
  | cons row rest ih =>
    intro index g hwf hw hh hlens hcount
    simp only [List.length_cons] at hcount
    push_cast at hcount
    have hk : (index : Int) ≤ c := by omega
    have hrowlen : ((row.length : Int)) ≤ 2 * (index : Int) + 1 := by
      have h0 := hlens 0 (by simp)
      simpa using h0
    obtain ⟨g1, e1, wf1, w1, h1, c1, s1, f1⟩ :=
      write_row_spec c index hk row 0 g hwf hw hh (by push_cast; omega)
    have hlens' : ∀ m, m < rest.length →
        ((rest.getD m []).length : Int) ≤ 2 * (((index + 1 : Nat) : Int) + m) + 1 := by
      intro m hm
      have h2 := hlens (m + 1) (by simp only [List.length_cons]; omega)
      simp only [List.getD_cons_succ] at h2
      push_cast at h2 ⊢
      omega
    have hcount' : ((index + 1 : Nat) : Int) + rest.length ≤ c + 1 := by
      push_cast
      omega
    obtain ⟨g', e', wf', w', h', c', s', f'⟩ :=
      ih (index + 1) g1 wf1 (by omega) (by omega) hlens' hcount'
    refine ⟨g', ?_, wf', by omega, by omega, by rw [c', c1], by rw [s', s1], fun hs => f' (f1 hs)⟩
    simp only [write_rows]
    rw [e1]
    dsimp only
    exact e'

lemma wf_make (x y : Int) : wf (Grid.make x y) := by
  constructor
  · simp [Grid.make]
  · intro row hm
    simp only [Grid.make] at hm
    rw [List.eq_of_mem_replicate hm]
    simp [Grid.make]

lemma getD_replicate_or_default {α : Type} (a d : α) :
    ∀ (nn m : Nat), (List.replicate nn a).getD m d = if m < nn then a else d
  | 0, m => by simp [List.replicate, List.getD]
  | nn + 1, 0 => by simp [List.replicate, List.getD]
  | nn + 1, m + 1 => by
    simp only [List.replicate, List.getD_cons_succ, Nat.succ_lt_succ_iff]
    exact getD_replicate_or_default a d nn m

lemma cellI_make (x y a b : Int) : cellI (Grid.make x y) a b = false := by
  unfold cellI Grid.make
  split
  · rw [getD_replicate_or_default]
    split
    · rw [getD_replicate_or_default]
      split
      · rfl
      · rfl
    · simp [List.getD]
  · rfl

lemma sym_make (x y c : Int) : RotSym c (Grid.make x y) := by
  intro a b
  rw [cellI_make, cellI_make]

lemma mapState_length {σ α β : Type} (f : α → σ → β × σ) (l : List α) :
    ∀ s : σ, ((mapState f l s).1).length = l.length := by
  induction l with
  | nil => intro s; rfl
  | cons a rest ih => intro s; simp [mapState, ih]

lemma calculate_row_length {σ : Type} (rule : List Bool → σ → Bool × σ)
    (prev : List Bool) (s : σ) :
    ((_calculate_row rule prev s).1).length = prev.length + 2 := by
  unfold _calculate_row
  rw [mapState_length]
  simp [List.length_append]

lemma generate_rows_length {σ : Type} (rule : List Bool → σ → Bool × σ) :
    ∀ (k : Nat) (row : List Bool) (s : σ), ((generate_rows rule k row s).1).length = k := by
  intro k
  induction k with
  | zero => intro row s; rfl
  | succ k ih =>
    intro row s
    simp only [generate_rows]
    simp [ih]

lemma generate_rows_getD {σ : Type} (rule : List Bool → σ → Bool × σ) :
    ∀ (k : Nat) (row : List Bool) (s : σ) (m : Nat), m < k →
      (((generate_rows rule k row s).1).getD m []).length = row.length + 2 * (m + 1) := by
  intro k
  induction k with
  | zero => intro row s m h; exact absurd h (by omega)
  | succ k ih =>
    intro row s m hm
    cases m with
    | zero =>
      simp only [generate_rows]
      rw [List.getD_cons_zero, calculate_row_length]
    | succ m =>
      simp only [generate_rows]
      rw [List.getD_cons_succ, ih _ _ m (by omega), calculate_row_length]
      omega

lemma set_seed (g g' : Grid) (x y : Int) (v : Bool) (h : g.set x y v = .ok g') :
    g'.seed = g.seed := by
  unfold Grid.set at h
  split at h
  · exact absurd h (by simp)
  · dsimp only at h
    split at h
    · exact absurd h (by simp)
    · injection h with h2
      rw [← h2]

lemma write_cell_seed (cx cy : Int) (k i : Nat) (g g' : Grid)
    (h : write_cell cx cy k i g = .ok g') : g'.seed = g.seed := by
  unfold write_cell at h
  dsimp only at h
  split at h
  · exact absurd h (by simp)
  · rename_i g1 h1
    split at h
    · exact absurd h (by simp)
    · rename_i g2 h2
      split at h
      · exact absurd h (by simp)
      · rename_i g3 h3
        rw [set_seed g3 g' _ _ _ h, set_seed g2 g3 _ _ _ h3,
          set_seed g1 g2 _ _ _ h2, set_seed g g1 _ _ _ h1]

lemma write_row_seed (cx cy : Int) (k : Nat) :
    ∀ (cells : List Bool) (i : Nat) (g g' : Grid),
      write_row cx cy k i cells g = .ok g' → g'.seed = g.seed := by
  intro cells
  induction cells with
  | nil =>
    intro i g g' h
    injection h with h2
    rw [← h2]
  | cons cell rest ih =>
    intro i g g' h
    simp only [write_row] at h
    split at h
    · exact absurd h (by simp)
    · rename_i g1 h1
      cases cell with
      | false =>
        rw [if_neg Bool.false_ne_true] at h1
        injection h1 with h2
        rw [ih (i + 1) g1 g' h, ← h2]
      | true =>
        rw [if_pos rfl] at h1
        rw [ih (i + 1) g1 g' h, write_cell_seed cx cy k i g g1 h1]

lemma write_rows_seed (cx cy : Int) :
    ∀ (rows : List (List Bool)) (index : Nat) (g g' : Grid),
      write_rows cx cy index rows g = .ok g' → g'.seed = g.seed := by
  intro rows
  induction rows with
  | nil =>
    intro index g g' h
    injection h with h2
    rw [← h2]
  | cons row rest ih =>
    intro index g g' h
    simp only [write_rows] at h
    split at h
    · exact absurd h (by simp)
    · rename_i g1 h1
      rw [ih (index + 1) g1 g' h, write_row_seed cx cy index row 0 g g1 h1]

lemma create_grid_seed {σ : Type} (reseed : Int → σ) (rule : List Bool → σ → Bool × σ)
    (sd : Seed) (n : Int) (s0 : σ) (v : Int) (g : Grid)
    (hv : _generate_seed sd = .ok v)
    (hg : create_grid reseed rule sd n s0 = .ok g) : g.seed = some v := by
  unfold create_grid at hg
  dsimp only at hg
  rw [hv] at hg
  dsimp only at hg
  exact write_rows_seed _ _ _ _ _ _ hg

lemma create_grid_spec {σ : Type} (reseed : Int → σ) (rule : List Bool → σ → Bool × σ)
    (sd : Seed) (n : Int) (s0 : σ) (v : Int)
    (hn : 1 ≤ n) (hv : _generate_seed sd = .ok v) :
    ∃ g, create_grid reseed rule sd n s0 = .ok g ∧ wf g ∧
      g.width = 2 * n - 1 ∧ g.height = 2 * n - 1 ∧ g.center = (n - 1, n - 1) ∧
      g.seed = some v ∧ RotSym (n - 1) g := by
  have hcdiv : (n * 2 - 1) / 2 = n - 1 := by omega
  have hWg : ({ Grid.make (n * 2 - 1) (n * 2 - 1) with seed := some v } : Grid).width = n * 2 - 1 := rfl
  have hHg : ({ Grid.make (n * 2 - 1) (n * 2 - 1) with seed := some v } : Grid).height = n * 2 - 1 := rfl
  have hCg : ({ Grid.make (n * 2 - 1) (n * 2 - 1) with seed := some v } : Grid).center = ((n * 2 - 1) / 2, (n * 2 - 1) / 2) := rfl
  have hwf1 : wf { Grid.make (n * 2 - 1) (n * 2 - 1) with seed := some v } :=
    wf_make (n * 2 - 1) (n * 2 - 1)
  have hsym1 : RotSym (n - 1) { Grid.make (n * 2 - 1) (n * 2 - 1) with seed := some v } :=
    sym_make (n * 2 - 1) (n * 2 - 1) (n - 1)
  have hlen_total : ((generate rule n (reseed v)).1).length = 1 + (n - 1).toNat := by
    unfold generate
    dsimp only
    rw [List.length_cons, generate_rows_length]
    omega
  have hrows_getD : ∀ m : Nat, m < 1 + (n - 1).toNat →
      (((generate rule n (reseed v)).1).getD m []).length = 2 * m + 1 := by
    intro m hm
    unfold generate
    dsimp only
    cases m with
    | zero => rfl
    | succ m =>
      rw [List.getD_cons_succ, generate_rows_getD rule _ _ _ m (by omega)]
      simp
      omega
  have hlens : ∀ m, m < ((generate rule n (reseed v)).1).length →
      ((((generate rule n (reseed v)).1).getD m []).length : Int) ≤ 2 * (((0 : Nat) : Int) + (m : Int)) + 1 := by
    intro m hm
    rw [hlen_total] at hm
    rw [hrows_getD m hm]
    push_cast
    omega
  have hcount : (((0 : Nat) : Int)) + ((generate rule n (reseed v)).1).length ≤ (n - 1) + 1 := by
    rw [hlen_total]
    push_cast
    omega
  obtain ⟨g', e', wf', w', h', c', s', f'⟩ :=
    write_rows_spec (n - 1) ((generate rule n (reseed v)).1) 0
      { Grid.make (n * 2 - 1) (n * 2 - 1) with seed := some v } hwf1
      (by rw [hWg]; omega) (by rw [hHg]; omega) hlens hcount
  refine ⟨g', ?_, wf', by rw [w', hWg]; omega, by rw [h', hHg]; omega, by rw [c', hCg, hcdiv], by rw [s'], f' hsym1⟩
  have hc1 : (Grid.make (n * 2 - 1) (n * 2 - 1)).center.1 = n - 1 := by
    simp only [Grid.make]
    exact hcdiv
  have hc2 : (Grid.make (n * 2 - 1) (n * 2 - 1)).center.2 = n - 1 := by
    simp only [Grid.make]
    exact hcdiv
  simp only [create_grid, hv]
  rw [hc1, hc2]
  exact e'

lemma create_grid_nonpos {σ : Type} (reseed : Int → σ) (rule : List Bool → σ → Bool × σ)
    (sd : Seed) (n : Int) (s0 : σ) (v : Int)
    (hn : n ≤ 0) (hv : _generate_seed sd = .ok v) :
    create_grid reseed rule sd n s0 = .error Err.outOfBounds := by
  have hsize : (n * 2 - 1).toNat = 0 := by omega
  have h0 : (n - 1).toNat = 0 := by omega
  simp only [create_grid, hv, generate, h0, generate_rows, write_rows, write_row,
    write_cell, if_true, Grid.set, Grid.make, List.length_replicate, hsize, pyIndex_zero_len]

lemma generate_length {σ : Type} (rule : List Bool → σ → Bool × σ) (n : Int) (s : σ) :
    ((generate rule n s).1).length = 1 + (n - 1).toNat := by
  unfold generate
  dsimp only
  rw [List.length_cons, generate_rows_length]
  omega

lemma generate_getD_length {σ : Type} (rule : List Bool → σ → Bool × σ) (n : Int) (s : σ)
    (m : Nat) (hm : m < 1 + (n - 1).toNat) :
    (((generate rule n s).1).getD m []).length = 2 * m + 1 := by
  unfold generate
  dsimp only
  cases m with
  | zero => rfl
  | succ m =>
    rw [List.getD_cons_succ, generate_rows_getD rule _ _ _ m (by omega)]
    simp
    omega

lemma digitsLenAux_lt : ∀ (fuel nn : Nat), nn ≤ fuel → nn < 10 ^ digitsLenAux fuel nn := by
  intro fuel
  induction fuel with
  | zero =>
    intro nn h
    have h0 : nn = 0 := by omega
    subst h0
    simp [digitsLenAux]
  | succ fuel ih =>
    intro nn h
    unfold digitsLenAux
    split
    · rename_i h10
      calc nn < 10 := h10
        _ ≤ 10 ^ 1 := by norm_num
    · rename_i h10
      push_neg at h10
      have hdiv : nn / 10 ≤ fuel := by omega
      have ihx := ih (nn / 10) hdiv
      have hpow : 10 ^ (1 + digitsLenAux fuel (nn / 10)) =
          10 * 10 ^ digitsLenAux fuel (nn / 10) := by
        rw [pow_add, pow_one]
      rw [hpow]
      omega

lemma decimalLen_lt (d : Nat) : d < 10 ^ decimalLen d :=
  digitsLenAux_lt d d le_rfl

lemma pyIndex_error_eq (len : Nat) (i : Int) (e : Err) (h : pyIndex len i = .error e) :
    e = .outOfBounds := by
  unfold pyIndex at h
  split at h <;> split at h <;> simp_all

lemma pyIndex_emod (len : Nat) (i : Int) (h0 : -(len : Int) ≤ i) (h1 : i < (len : Int)) :
    pyIndex len i = .ok ((i % (len : Int))).toNat ∧
    pyIndex len (i % (len : Int)) = .ok ((i % (len : Int))).toNat := by
  have hlpos : 0 < (len : Int) := by omega
  have hval : i % (len : Int) = if 0 ≤ i then i else i + len := by
    split
    · rename_i hp
      exact Int.emod_eq_of_lt hp h1
    · rename_i hn
      have hstep := @Int.add_mul_emod_self_left i (len : Int) 1
      rw [mul_one] at hstep
      rw [← hstep]
      exact Int.emod_eq_of_lt (by omega) (by omega)
  have hm0 : 0 ≤ i % (len : Int) := by rw [hval]; split <;> omega
  have hm1 : i % (len : Int) < (len : Int) := by rw [hval]; split <;> omega
  refine ⟨?_, pyIndex_ok_nonneg len _ hm0 hm1⟩
  rcases le_or_lt 0 i with hp | hn
  · rw [pyIndex_ok_nonneg len i hp h1]
    congr 1
    rw [hval, if_pos hp]
  · rw [pyIndex_ok_neg len i hn (by omega)]
    congr 1
    rw [hval, if_neg (by omega)]
    omega

lemma suppressCount_eq_one (t : List Bool) (h : rule150 t = true) : suppressCount t = 1 := by
  unfold suppressCount
  have hp : ∀ d ∈ Finset.range 2001,
      ((rule150randomized pickDraw t d).1 = false) ↔ d = 0 := by
    intro d _
    unfold rule150randomized pickDraw
    rw [if_pos h]
    dsimp only
    simp
  rw [Finset.filter_congr hp, Finset.filter_eq']
  rw [if_pos (by simp)]
  simp

/-- Claim C4: for every ordered triple of booleans, `rule150` returns true
iff the number of true values in the triple is odd, i.e. it equals the XOR
of the three cells. -/
theorem rule150_parity (a b c : Bool) :
    (rule150 [a, b, c] = true ↔ ([a, b, c].count true) % 2 = 1) ∧
    rule150 [a, b, c] = Bool.xor a (Bool.xor b c) := by
  cases a <;> cases b <;> cases c <;> exact ⟨by decide, by decide⟩

/-- Claim C5: two assembly runs with the same seed, rule and `n` produce
identical results regardless of the prior state of the shared random
source, because `create_grid` reseeds the source with the grid's canonical
seed before any row is generated. -/
theorem create_grid_deterministic {σ : Type} (reseed : Int → σ)
    (rule : List Bool → σ → Bool × σ) (sd : Seed) (n : Int) (s0 s1 : σ) :
    create_grid reseed rule sd n s0 = create_grid reseed rule sd n s1 := rfl

/-- Claim C3: for every rule and every count `n ≥ 1`, the row sequence of
`generate` has `n` rows, starts with `[true]`, each subsequent row is
longer than the previous by exactly 2 (one window per position of the
previous row padded with two false cells on each side), and the k-th row
(0-indexed) has length exactly `2k + 1`. -/
theorem generate_row_lengths {σ : Type} (rule : List Bool → σ → Bool × σ)
    (n : Int) (s : σ) (hn : 1 ≤ n) :
    ((generate rule n s).1).length = n.toNat ∧
    ((generate rule n s).1).getD 0 [] = [true] ∧
    (∀ k : Nat, (k : Int) + 1 < n →
      (((generate rule n s).1).getD (k + 1) []).length =
        (((generate rule n s).1).getD k []).length + 2) ∧
    (∀ k : Nat, (k : Int) < n →
      (((generate rule n s).1).getD k []).length = 2 * k + 1) := by
  refine ⟨?_, rfl, ?_, ?_⟩
  · rw [generate_length]
    omega
  · intro k hk
    rw [generate_getD_length rule n s (k + 1) (by omega),
      generate_getD_length rule n s k (by omega)]
    omega
  · intro k hk
    exact generate_getD_length rule n s k (by omega)

theorem generate_row_lengths_witness :
    ((generate pureRule 3 ()).1).length = 3 ∧
    ((generate pureRule 3 ()).1).getD 0 [] = [true] ∧
    ((generate pureRule 3 ()).1).getD 2 [] = [true, false, true, false, true] ∧
    (((generate pureRule 3 ()).1).getD 2 []).length = 2 * 2 + 1 := by
  have h := generate_row_lengths pureRule 3 () (by omega)
  exact ⟨h.1, h.2.1, by decide, h.2.2.2 2 (by omega)⟩

/-- Claim C1: for every `n ≥ 1` and every normalizable seed, assembly
produces a `(2n-1) × (2n-1)` grid whose true cells are invariant under a
90-degree rotation about the center cell `((2n-2)/2, (2n-2)/2)`: the cell
at offset `(a, b)` from the center is true iff the cell at offset
`(-b, a)` is. -/
theorem create_grid_rotation_invariant {σ : Type} (reseed : Int → σ)
    (rule : List Bool → σ → Bool × σ) (sd : Seed) (n : Int) (s0 : σ) (v : Int)
    (hn : 1 ≤ n) (hv : _generate_seed sd = .ok v) :
    ∃ g, create_grid reseed rule sd n s0 = .ok g ∧
      g.width = 2 * n - 1 ∧ g.height = 2 * n - 1 ∧
      g.center = ((2 * n - 2) / 2, (2 * n - 2) / 2) ∧
      ∀ a b : Int, -(n - 1) ≤ a → a ≤ n - 1 → -(n - 1) ≤ b → b ≤ n - 1 →
        g.get ((n - 1) + a) ((n - 1) + b) = g.get ((n - 1) - b) ((n - 1) + a) := by
  obtain ⟨g, e, hwf, hw, hh, hcen, hseed, hsym⟩ := create_grid_spec reseed rule sd n s0 v hn hv
  refine ⟨g, e, hw, hh, by rw [hcen, show (2 * n - 2) / 2 = n - 1 from by omega], ?_⟩
  intro a b ha1 ha2 hb1 hb2
  have hget1 : g.get ((n - 1) + a) ((n - 1) + b) = .ok (cellI g ((n - 1) + a) ((n - 1) + b)) :=
    get_spec g _ _ hwf (by omega) (by omega) (by omega) (by omega)
  have hget2 : g.get ((n - 1) - b) ((n - 1) + a) = .ok (cellI g ((n - 1) - b) ((n - 1) + a)) :=
    get_spec g _ _ hwf (by omega) (by omega) (by omega) (by omega)
  rw [hget1, hget2]
  have hiff := hsym a b
  cases hc1 : cellI g ((n - 1) + a) ((n - 1) + b) <;>
    cases hc2 : cellI g ((n - 1) - b) ((n - 1) + a)
  · rfl
  · exfalso
    rw [hc1, hc2] at hiff
    simp at hiff
  · exfalso
    rw [hc1, hc2] at hiff
    simp at hiff
  · rfl

theorem create_grid_rotation_invariant_witness :
    ∃ g, create_grid (fun _ => ()) pureRule (Seed.int 42) 2 () = .ok g ∧
      g.width = 2 * 2 - 1 ∧ g.height = 2 * 2 - 1 ∧
      g.center = ((2 * 2 - 2) / 2, (2 * 2 - 2) / 2) ∧
      ∀ a b : Int, -(2 - 1) ≤ a → a ≤ 2 - 1 → -(2 - 1) ≤ b → b ≤ 2 - 1 →
        g.get ((2 - 1) + a) ((2 - 1) + b) = g.get ((2 - 1) - b) ((2 - 1) + a) :=
  create_grid_rotation_invariant (fun _ => ()) pureRule (Seed.int 42) 2 () 42 (by omega) rfl

/-- Claim C9: for every `n ≥ 1` (and normalizable seed), every coordinate
written during assembly is in bounds: for raw offsets `raw_x = i ≤ n - 1`
and `raw_y = j - i` with `0 ≤ j ≤ 2i`, all four rotated targets about the
center `n - 1` lie in `[0, 2n-2]`, and consequently `create_grid` performs
no out-of-range array access and returns a grid. -/
theorem create_grid_writes_in_bounds {σ : Type} (reseed : Int → σ)
    (rule : List Bool → σ → Bool × σ) (sd : Seed) (n : Int) (s0 : σ) (v : Int)
    (hn : 1 ≤ n) (hv : _generate_seed sd = .ok v) :
    (∀ i j : Int, 0 ≤ i → i ≤ n - 1 → 0 ≤ j → j ≤ 2 * i →
      (0 ≤ (n - 1) + i ∧ (n - 1) + i ≤ 2 * n - 2) ∧
      (0 ≤ (n - 1) - i ∧ (n - 1) - i ≤ 2 * n - 2) ∧
      (0 ≤ (n - 1) + (j - i) ∧ (n - 1) + (j - i) ≤ 2 * n - 2) ∧
      (0 ≤ (n - 1) - (j - i) ∧ (n - 1) - (j - i) ≤ 2 * n - 2)) ∧
    ∃ g, create_grid reseed rule sd n s0 = .ok g := by
  constructor
  · intro i j h1 h2 h3 h4
    omega
  · obtain ⟨g, e, _⟩ := create_grid_spec reseed rule sd n s0 v hn hv
    exact ⟨g, e⟩

theorem create_grid_writes_in_bounds_witness :
    (∀ i j : Int, 0 ≤ i → i ≤ 1 - 1 → 0 ≤ j → j ≤ 2 * i →
      (0 ≤ (1 - 1) + i ∧ (1 - 1) + i ≤ 2 * 1 - 2) ∧
      (0 ≤ (1 - 1) - i ∧ (1 - 1) - i ≤ 2 * 1 - 2) ∧
      (0 ≤ (1 - 1) + (j - i) ∧ (1 - 1) + (j - i) ≤ 2 * 1 - 2) ∧
      (0 ≤ (1 - 1) - (j - i) ∧ (1 - 1) - (j - i) ≤ 2 * 1 - 2)) ∧
    ∃ g, create_grid (fun _ => ()) pureRule (Seed.int 7) 1 () = .ok g :=
  create_grid_writes_in_bounds (fun _ => ()) pureRule (Seed.int 7) 1 () 7 (by omega) rfl

/-- Claim C6 counterexample: at `n = 0` the assembly fails with the
out-of-bounds error of the first grid write (Python `IndexError`), not
with the `InvalidWedgeSizeError` the spec names; no such error exists in
the code. -/
theorem create_grid_zero_error_kind :
    create_grid (fun _ => ()) pureRule (Seed.int 42) 0 () = .error Err.outOfBounds ∧
    create_grid (fun _ => ()) pureRule (Seed.int 42) 0 () ≠ .error Err.invalidWedgeSize := by
  constructor
  · rfl
  · decide

/-- Claim C6 (amended): for every `n ≤ 0` (and normalizable seed), the
assembly fails — but with the out-of-bounds error raised by the very first
grid write against the empty backing array, not with an
`InvalidWedgeSizeError`; no grid is returned. -/
theorem create_grid_nonpos_fails {σ : Type} (reseed : Int → σ)
    (rule : List Bool → σ → Bool × σ) (sd : Seed) (n : Int) (s0 : σ) (v : Int)
    (hn : n ≤ 0) (hv : _generate_seed sd = .ok v) :
    create_grid reseed rule sd n s0 = .error Err.outOfBounds ∧
    ∀ g : Grid, create_grid reseed rule sd n s0 ≠ .ok g := by
  have h := create_grid_nonpos reseed rule sd n s0 v hn hv
  refine ⟨h, ?_⟩
  intro g hg
  rw [h] at hg
  exact Except.noConfusion hg

theorem create_grid_nonpos_fails_witness :
    create_grid (fun _ => ()) pureRule (Seed.int 7) (-1) () = .error Err.outOfBounds ∧
    ∀ g : Grid, create_grid (fun _ => ()) pureRule (Seed.int 7) (-1) () ≠ .ok g :=
  create_grid_nonpos_fails (fun _ => ()) pureRule (Seed.int 7) (-1) () 7 (by omega) rfl

/-- Claim C7: on a freshly constructed grid, `get` and `set` with
`x ≥ width` or `y ≥ height` (in particular `x = width` or `y = height`)
fail with the out-of-bounds error instead of returning or writing a
value. -/
theorem grid_get_set_out_of_bounds (w h : Nat) (x y : Int)
    (hxy : (w : Int) ≤ x ∨ (h : Int) ≤ y) :
    (Grid.make (w : Int) (h : Int)).get x y = .error Err.outOfBounds ∧
    (Grid.make (w : Int) (h : Int)).set x y true = .error Err.outOfBounds := by
  have hA : (Grid.make (w : Int) (h : Int)).array =
      List.replicate h (List.replicate w false) := by
    simp [Grid.make]
  constructor
  · unfold Grid.get
    rw [hA, List.length_replicate]
    rcases hxy with hx | hy
    · cases hpy : pyIndex h y with
      | error e =>
        rw [pyIndex_error_eq h y e hpy]
      | ok r =>
        dsimp only
        rw [getD_replicate _ _ _ _ (pyIndex_ok_lt h y r hpy), List.length_replicate,
          pyIndex_err_ge w x hx]
    · rw [pyIndex_err_ge h y hy]
  · unfold Grid.set
    rw [hA, List.length_replicate]
    rcases hxy with hx | hy
    · cases hpy : pyIndex h y with
      | error e =>
        rw [pyIndex_error_eq h y e hpy]
      | ok r =>
        dsimp only
        rw [getD_replicate _ _ _ _ (pyIndex_ok_lt h y r hpy), List.length_replicate,
          pyIndex_err_ge w x hx]
    · rw [pyIndex_err_ge h y hy]

theorem grid_get_set_out_of_bounds_witness :
    (Grid.make ((3 : Nat) : Int) ((3 : Nat) : Int)).get 3 0 = .error Err.outOfBounds ∧
    (Grid.make ((3 : Nat) : Int) ((3 : Nat) : Int)).set 3 0 true = .error Err.outOfBounds :=
  grid_get_set_out_of_bounds 3 3 3 0 (Or.inl (by omega))

/-- Claim C10: on a structurally well-formed grid, `get` and `set` with a
negative coordinate in range (`-width ≤ x < 0` and/or `-height ≤ y < 0`)
do not fail: they behave exactly like the access at
`(x mod width, y mod height)` (wrap-around from the end), so negative
out-of-range coordinates are not rejected. -/
theorem grid_negative_wraps (g : Grid) (x y : Int) (v : Bool) (hwf : wf g)
    (hx0 : -g.width ≤ x) (hx1 : x < g.width) (hy0 : -g.height ≤ y) (hy1 : y < g.height) :
    g.get x y = g.get (x % g.width) (y % g.height) ∧
    g.set x y v = g.set (x % g.width) (y % g.height) v ∧
    (∃ bv, g.get x y = .ok bv) ∧ (∃ g', g.set x y v = .ok g') := by
  obtain ⟨hlen, hrows⟩ := hwf
  have hW : 0 < g.width := by omega
  have hH : 0 < g.height := by omega
  have harr : (g.array.length : Int) = g.height := by omega
  obtain ⟨hpy1, hpy2⟩ := pyIndex_emod g.array.length y (by omega) (by omega)
  rw [harr] at hpy1 hpy2
  have hrN : (y % g.height).toNat < g.array.length := by
    have h1 := Int.emod_nonneg y (by omega : g.height ≠ 0)
    have h2 := Int.emod_lt_of_pos y hH
    omega
  have hrowlen : ((g.array.getD (y % g.height).toNat []).length : Int) = g.width := by
    rw [hrows _ (getD_mem _ _ _ hrN)]
    omega
  obtain ⟨hpx1, hpx2⟩ :=
    pyIndex_emod (g.array.getD (y % g.height).toNat []).length x (by omega) (by omega)
  rw [hrowlen] at hpx1 hpx2
  refine ⟨?_, ?_, ?_, ?_⟩
  · unfold Grid.get
    rw [hpy1, hpy2]
    dsimp only
    rw [hpx1, hpx2]
  · unfold Grid.set
    rw [hpy1, hpy2]
    dsimp only
    rw [hpx1, hpx2]
  · unfold Grid.get
    rw [hpy1]
    dsimp only
    rw [hpx1]
    exact ⟨_, rfl⟩
  · unfold Grid.set
    rw [hpy1]
    dsimp only
    rw [hpx1]
    exact ⟨_, rfl⟩

theorem grid_negative_wraps_witness :
    (Grid.make 2 2).get (-1) (-1) =
      (Grid.make 2 2).get ((-1) % (Grid.make 2 2).width) ((-1) % (Grid.make 2 2).height) ∧
    (Grid.make 2 2).set (-1) (-1) true =
      (Grid.make 2 2).set ((-1) % (Grid.make 2 2).width) ((-1) % (Grid.make 2 2).height) true ∧
    (∃ bv, (Grid.make 2 2).get (-1) (-1) = .ok bv) ∧
    (∃ g', (Grid.make 2 2).set (-1) (-1) true = .ok g') :=
  grid_negative_wraps (Grid.make 2 2) (-1) (-1) true ⟨by decide, by decide⟩
    (by decide) (by decide) (by decide) (by decide)

/-- Claim C8: seed normalization passes integers through unchanged; a
string seed yields the integer formed by concatenating the decimal
representations of its characters' code points in order (appending one
code point multiplies the accumulated value by 10 to the number of its
digits and adds it, and each code point is smaller than that power, so
this is exactly decimal concatenation); and whenever assembly returns a
grid, the grid's stored seed is the normalized seed. -/
theorem seed_normalization {σ : Type} (m : Int) (s : String) (hs : s ≠ "")
    (reseed : Int → σ) (rule : List Bool → σ → Bool × σ) (sd : Seed) (n : Int) (s0 : σ)
    (v : Int) (g : Grid) (hv : _generate_seed sd = .ok v)
    (hg : create_grid reseed rule sd n s0 = .ok g) :
    _generate_seed (.int m) = .ok m ∧
    _generate_seed (.str s) = .ok (to_int s) ∧
    (∀ (l : List Char) (ch : Char),
      ofChars (l ++ [ch]) = ofChars l * 10 ^ decimalLen ch.toNat + ch.toNat) ∧
    (∀ d : Nat, d < 10 ^ decimalLen d) ∧
    g.seed = some v := by
  refine ⟨rfl, ?_, ?_, decimalLen_lt, create_grid_seed reseed rule sd n s0 v g hv hg⟩
  · unfold _generate_seed
    dsimp only
    rw [if_neg]
    intro hemp
    exact hs ((String.isEmpty_iff s).mp hemp)
  · intro l ch
    unfold ofChars
    rw [List.foldl_append]
    rfl

theorem seed_normalization_witness :
    _generate_seed (.int 5) = .ok 5 ∧
    _generate_seed (.str "abc") = .ok (to_int "abc") ∧
    to_int "abc" = 979899 ∧
    ofChars (['x'] ++ ['c']) = ofChars ['x'] * 10 ^ decimalLen 'c'.toNat + 'c'.toNat ∧
    (⟨1, 1, (0, 0), some 42, [[true]]⟩ : Grid).seed = some 42 := by
  obtain ⟨h1, h2, h3, h4, h5⟩ :=
    @seed_normalization Unit 5 "abc" (by decide) (fun _ => ()) pureRule (Seed.int 42) 1 ()
      42 ⟨1, 1, (0, 0), some 42, [[true]]⟩ rfl (by decide)
  exact ⟨h1, h2, by decide, h3 ['x'] 'c', h5⟩

/-- Claim C2 counterexample: on the neighborhood `[T, F, F]` (where the
deterministic rule fires), the probability that the randomized rule
suppresses the result under one uniform draw of `random.randint(0, 2000)`
is not `1/2000`: the inclusive range has 2001 equally likely values and
exactly one of them (the draw 0) suppresses. -/
theorem rule150randomized_rate_not_inv2000 :
    ¬ ((suppressCount [true, false, false] : ℚ) / 2001 = 1 / 2000) := by
  rw [suppressCount_eq_one [true, false, false] (by decide)]
  norm_num

/-- Claim C2 (amended): for every neighborhood on which the deterministic
parity rule fires, the randomized rule suppresses the result with
probability exactly `1/2001` under one uniform draw of
`random.randint(0, 2000)` (2001 equally likely values, suppressing only on
0); for every neighborhood on which the deterministic rule is false, the
randomized rule returns false without consuming a draw. -/
theorem rule150randomized_suppression (t : List Bool) :
    (rule150 t = true → (suppressCount t : ℚ) / 2001 = 1 / 2001) ∧
    (rule150 t = false → ∀ (σ : Type) (randint : Nat → Nat → σ → Nat × σ) (s : σ),
      rule150randomized randint t s = (false, s)) := by
  constructor
  · intro h
    rw [suppressCount_eq_one t h]
    norm_num
  · intro h σ randint s
    unfold rule150randomized
    rw [if_neg]
    rw [h]
    exact Bool.false_ne_true

theorem rule150randomized_suppression_witness :
    (suppressCount [true, false, false] : ℚ) / 2001 = 1 / 2001 ∧
    rule150randomized pickDraw [false, true, true] 5 = (false, 5) :=
  ⟨(rule150randomized_suppression [true, false, false]).1 (by decide),
    (rule150randomized_suppression [false, true, true]).2 (by decide) Nat pickDraw 5⟩
